import Mathlib

/-!
Shallow embedding of the request layer of the elasticsearch-service repository:
`RequestService.fetch`, `RequestService.fetchJSON`, `RequestService.fetchJSONP`,
`RequestService._clearFunction`, `RequestService._removeScript`
(src/app/scripts/controllers/SearchController.ts) and
`ElasticSearchService.search` / `ElasticSearchService.getDefaultConfig`
(src/unnamed/part_000).

The code is untyped JavaScript at runtime, so option objects, headers and
bodies are modelled by a JavaScript value type `JVal` with JS truthiness,
`typeof`-style tests, own-enumerable-property iteration, template-literal
string conversion and `JSON.stringify` serialization.
-/

namespace ElasticsearchService

/-- A JavaScript runtime value, as far as the request layer inspects values:
`undefined`, `null`, booleans, (integral) numbers, strings, arrays and plain
objects with an insertion-ordered own-property list. -/
inductive JVal where
  | undefined
  | null
  | bool (b : Bool)
  | num (n : Int)
  | str (s : String)
  | arr (elems : List JVal)
  | obj (fields : List (String × JVal))

/-- JS truthiness: `undefined`, `null`, `false`, `0`, `""` are falsy; every
object and array is truthy. -/
def JVal.truthy : JVal → Bool
  | .undefined => false
  | .null => false
  | .bool b => b
  | .num n => decide (n ≠ 0)
  | .str s => decide (s ≠ "")
  | .arr _ => true
  | .obj _ => true

/-- Strict equality `v === 's'` against a string literal. -/
def JVal.eqStr : JVal → String → Bool
  | .str s, t => decide (s = t)
  | _, _ => false

/-- The JS test `typeof v === 'object'` (true for objects, arrays and `null`). -/
def JVal.isObjectType : JVal → Bool
  | .obj _ => true
  | .arr _ => true
  | .null => true
  | _ => false

/-- The JS test `typeof v === 'string'`. -/
def JVal.isString : JVal → Bool
  | .str _ => true
  | _ => false

mutual

/-- Template-literal conversion of a value to a string, as in `${v}`. -/
def JVal.toJSString : JVal → String
  | .undefined => "undefined"
  | .null => "null"
  | .bool b => if b then "true" else "false"
  | .num n => toString n
  | .str s => s
  | .arr elems => JVal.toJSStringElems elems
  | .obj _ => "[object Object]"

/-- Array-to-string conversion: elements joined by commas, `null` and
`undefined` elements rendered empty. -/
def JVal.toJSStringElems : List JVal → String
  | [] => ""
  | [x] => JVal.toJSStringElem x
  | x :: rest => JVal.toJSStringElem x ++ "," ++ JVal.toJSStringElems rest

/-- One array element rendered for `Array.prototype.toString`. -/
def JVal.toJSStringElem : JVal → String
  | .undefined => ""
  | .null => ""
  | v => JVal.toJSString v

end

/-- Hexadecimal digit for JSON `\u00XX` escapes. -/
def hexDigit (n : Nat) : String :=
  if n < 10 then toString n
  else if n = 10 then "a"
  else if n = 11 then "b"
  else if n = 12 then "c"
  else if n = 13 then "d"
  else if n = 14 then "e"
  else "f"

/-- JSON escaping of one character of a string literal. -/
def jsonEscapeChar (c : Char) : String :=
  if c = '"' then "\\\""
  else if c = '\\' then "\\\\"
  else if c = '\n' then "\\n"
  else if c = '\r' then "\\r"
  else if c = '\t' then "\\t"
  else if c.toNat < 32 then
    "\\u00" ++ hexDigit (c.toNat / 16) ++ hexDigit (c.toNat % 16)
  else String.singleton c

/-- A string rendered as a quoted JSON string literal. -/
def jsonQuote (s : String) : String :=
  "\"" ++ String.join (s.toList.map jsonEscapeChar) ++ "\""

mutual

/-- `JSON.stringify`: returns `none` exactly when the argument is `undefined`
(where JavaScript returns the value `undefined` instead of a string). -/
def jsonStringify : JVal → Option String
  | .undefined => none
  | .null => some "null"
  | .bool b => some (if b then "true" else "false")
  | .num n => some (toString n)
  | .str s => some (jsonQuote s)
  | .arr elems => some ("[" ++ jsonStringifyElems elems ++ "]")
  | .obj fields => some ("\x7b" ++ jsonStringifyFields fields ++ "\x7d")

/-- Array elements inside `JSON.stringify` (an `undefined` element becomes
`null`), joined by commas. -/
def jsonStringifyElems : List JVal → String
  | [] => ""
  | [x] => (jsonStringify x).getD "null"
  | x :: rest => (jsonStringify x).getD "null" ++ "," ++ jsonStringifyElems rest

/-- Object fields inside `JSON.stringify`; fields whose value serializes to
`undefined` are dropped. -/
def jsonStringifyFields : List (String × JVal) → String
  | [] => ""
  | (k, v) :: rest =>
    match jsonStringify v with
    | none => jsonStringifyFields rest
    | some s =>
      match rest with
      | [] => jsonQuote k ++ ":" ++ s
      | _ =>
        let tail := jsonStringifyFields rest
        if tail = "" then jsonQuote k ++ ":" ++ s
        else jsonQuote k ++ ":" ++ s ++ "," ++ tail

end

/-- The value of the JS expression `JSON.stringify(v)`: a string, or the value
`undefined` when `v` is `undefined`. -/
def stringifyToJVal (v : JVal) : JVal :=
  match jsonStringify v with
  | some s => .str s
  | none => .undefined

/-- Own-property lookup in an insertion-ordered field list; absent keys give
`undefined`. -/
def lookupFields : List (String × JVal) → String → JVal
  | [], _ => .undefined
  | (k', v) :: rest, k => if k' = k then v else lookupFields rest k

/-- JS member access `v[k]` (for the property names the request layer reads;
non-object bases give `undefined`). -/
def JVal.getProp (v : JVal) (k : String) : JVal :=
  match v with
  | .obj fields => lookupFields fields k
  | _ => .undefined

/-- Assignment into a field list: overwrite in place, or append a new field. -/
def setFields : List (String × JVal) → String → JVal → List (String × JVal)
  | [], k, v => [(k, v)]
  | (k', w) :: rest, k, v =>
    if k' = k then (k', v) :: rest else (k', w) :: setFields rest k v

/-- JS member assignment `v[k] = w`; assignment to a primitive base is
silently ignored (sloppy mode). -/
def JVal.setProp (v : JVal) (k : String) (w : JVal) : JVal :=
  match v with
  | .obj fields => .obj (setFields fields k w)
  | _ => v

/-- Whether an object has an own property with the given exact key. -/
def JVal.hasOwn (v : JVal) (k : String) : Bool :=
  match v with
  | .obj fields => fields.any (fun kv => kv.1 = k)
  | _ => false

/-- Own enumerable properties as visited by `for (var key in v)` together
with a `hasOwnProperty` guard: an object's fields in order, an array's
indexed elements, nothing otherwise. -/
def JVal.ownProps : JVal → List (String × JVal)
  | .obj fields => fields
  | .arr elems => elems.enum.map (fun p => (toString p.1, p.2))
  | _ => []

/-!
`RequestService.fetch` (SearchController.ts lines 89-171).

The synchronous part of the promise executor either rejects before any
network request (a `TypeError` message) or reaches `xhr.open`/`xhr.send`
with a concrete outgoing request; `RequestSent` records everything the code
hands to the XHR: the (possibly extended) URL, the method passed to `open`,
the credentials, the headers applied via `setRequestHeader`, and the value
passed to `send`. The function also returns the final `options` value, since
the code mutates the caller's options object in place.
-/

/-- The outgoing request at the point of `xhr.open`/`xhr.send`. -/
structure RequestSent where
  url : String
  method : JVal
  credentials : Option (JVal × JVal)
  headers : List (String × JVal)
  body : JVal

/-- The query-string accumulation loop of `fetch` for a GET/DELETE object
body: `uri += separator + key + '=' + value` with `separator` starting empty
and becoming `'&'` after the first property. -/
def queryOfProps (props : List (String × JVal)) : String :=
  (props.foldl
    (fun acc kv => (acc.1 ++ acc.2 ++ kv.1 ++ "=" ++ kv.2.toJSString, "&"))
    ("", "")).1

/-- The tail of `fetch` after body encoding: the HEAD body check, then
`xhr.open` (with credentials when `options.credentials && options.credentials.username`),
the header loop (run when `typeof headers === 'object'`), and `xhr.send`
(`null` when the body is `undefined`). -/
def finishRequest (url : String) (options : JVal) (headers : JVal) :
    Except String RequestSent × JVal :=
  if (options.getProp "method").eqStr "HEAD" && (options.getProp "body").truthy then
    (.error "Body not allowed for HEAD requests", options)
  else
    (.ok
      { url := url
        method := if (options.getProp "method").truthy then options.getProp "method" else .str "GET"
        credentials :=
          if (options.getProp "credentials").truthy
              && ((options.getProp "credentials").getProp "username").truthy then
            some ((options.getProp "credentials").getProp "username",
                  (options.getProp "credentials").getProp "password")
          else none
        headers := if headers.isObjectType then headers.ownProps else []
        body := match options.getProp "body" with
                | .undefined => .null
                | v => v }, options)

/-- The synchronous part of `RequestService.fetch`: default `options` to
`{}` when falsy, capture `headers`; for a truthy GET/DELETE body either
append its own enumerable properties to the URL (object body) or reject
(non-object body); otherwise JSON-stringify a non-string body in place;
then run the HEAD check and reach `open`/`send`. -/
def fetchPrepare (url0 : String) (options0 : JVal) :
    Except String RequestSent × JVal :=
  let options := if options0.truthy then options0 else .obj []
  let headers := options.getProp "headers"
  if ((options.getProp "method").eqStr "GET" || (options.getProp "method").eqStr "DELETE")
      && (options.getProp "body").truthy then
    if (options.getProp "body").isObjectType then
      let uri := queryOfProps (options.getProp "body").ownProps
      let url := url0 ++ (if url0.data.contains '?' then "&" else "?") ++ uri
      finishRequest url options headers
    else
      (.error "Non object like body not allowed for GET requests. The body has to be an object so the properties will be appended as a GET parameter to the url.",
       options)
  else
    let options :=
      if (options.getProp "body").isString then options
      else options.setProp "body" (stringifyToJVal (options.getProp "body"))
    finishRequest url0 options headers

/-- The value `options.body` holds after `fetch`'s body-encoding step, for a
non-GET/DELETE path: strings pass through, everything else is replaced by
`JSON.stringify` of itself. -/
def encodedBodyAfter (b : JVal) : JVal :=
  if b.isString then b else stringifyToJVal b

/-- The `xhr.onload` handler of `fetch`: reject with the raw response text
on status `>= 400` or status `0`, otherwise resolve with `xhr.response`
when the XHR exposes one, else `xhr.responseText`. -/
def xhrOnload (status : Nat) (response : Option String) (responseText : String) :
    Except String String :=
  if status ≥ 400 || status = 0 then .error responseText
  else .ok (response.getD responseText)

/-!
`RequestService.fetchJSON` (lines 180-193): default `options` and
`options.headers`, then default `options.headers['Content-Type']` to
`'application/json'` when that exact key holds a falsy value, and delegate
to `fetch` (whose resolved body is then JSON-parsed; the parsing step plays
no role in the claims below). All three defaults mutate the caller's
options/headers objects in place, which the value-level result records.
-/

/-- The options value `fetchJSON` passes on to `fetch`. -/
def fetchJSONOptions (options0 : JVal) : JVal :=
  let options := if options0.truthy then options0 else .obj []
  let options :=
    if (options.getProp "headers").truthy then options
    else options.setProp "headers" (.obj [])
  if ((options.getProp "headers").getProp "Content-Type").truthy then options
  else
    options.setProp "headers"
      ((options.getProp "headers").setProp "Content-Type" (.str "application/json"))

/-!
`ElasticSearchService` (src/unnamed/part_000): `getDefaultConfig` builds the
POST options with the match/highlight query body; `search` dispatches on the
truthiness of `customConfig` and calls `fetchJSON` on the configured search
URL with either the custom config or the default one. The model returns the
`(url, config)` pair handed to `fetchJSON`.
-/

/-- `ElasticSearchService.getDefaultConfig`. -/
def getDefaultConfig (searchTerm : String) : JVal :=
  .obj
    [("method", .str "POST"),
     ("body", .obj
       [("query", .obj [("match", .obj [("url", .str searchTerm)])]),
        ("highlight", .obj
          [("pre_tags", .arr [.str "<strong>"]),
           ("post_tags", .arr [.str "</strong>"]),
           ("fields", .obj [("*", .obj [])]),
           ("require_field_match", .bool false)])])]

/-- `ElasticSearchService.search`: the `(url, options)` pair passed to
`RequestService.fetchJSON` (`customConfig` absent is the JS `undefined`). -/
def search (searchURL : String) (searchTerm : String) (customConfig : Option JVal) :
    String × JVal :=
  if (customConfig.getD .undefined).truthy then
    (searchURL, customConfig.getD .undefined)
  else
    (searchURL, getDefaultConfig searchTerm)

/-!
`RequestService.fetchJSONP` (lines 195-229) and its cleanup helpers
(lines 231-242), as a small state machine.

After the promise executor has run, the call owns: the temporary global
callback (`window[callbackFnName]`, `registered`), the injected script
element (`scriptPresent`), and the pending timer (`timerPending`). The two
possible later events are the script loading and invoking the global
callback (`stepCallback`) and the timer firing (`stepTimeout`); each mirrors
the corresponding handler body line by line. The state also counts how often
`clearTimeout`, `_removeScript` and `_clearFunction` actually ran, and
records the first promise settlement (later `resolve`/`reject` calls on a
settled promise are no-ops).

`_removeScript` has no exception handling: when the script element is
already gone, `document.getElementById` yields `null` and
`removeChild(null)` throws, aborting the rest of the handler; the model
skips the steps that would follow the throw.
-/

/-- The per-call JSONP resources and cleanup counters. -/
structure JsonpState where
  registered : Bool
  scriptPresent : Bool
  timerPending : Bool
  outcome : Option (Except String JVal)
  clearTimeoutCount : Nat
  removeScriptCount : Nat
  clearFunctionCount : Nat

/-- The state right after the `fetchJSONP` executor ran: global callback
registered, script injected, timer armed, promise pending. -/
def jsonpInit : JsonpState :=
  { registered := true, scriptPresent := true, timerPending := true
    outcome := none, clearTimeoutCount := 0, removeScriptCount := 0
    clearFunctionCount := 0 }

/-- Settle the promise: only the first `resolve`/`reject` takes effect. -/
def settleOutcome (st : JsonpState) (r : Except String JVal) : JsonpState :=
  match st.outcome with
  | some _ => st
  | none => { st with outcome := some r }

/-- The injected script invoking `window[callbackFnName](response)`. When the
global has already been deleted the invocation is a `ReferenceError` inside
the script's own context and nothing reaches the promise. Otherwise the
handler resolves, calls `clearTimeout` (the `timeoutId` guard always holds:
`setTimeout` ran synchronously in the executor and returned a nonzero id),
removes the script, then deletes the global; if the script element were
already gone, `_removeScript` would throw and the `_clearFunction` call
after it would not run. -/
def stepCallback (response : JVal) (st : JsonpState) : JsonpState :=
  if !st.registered then st
  else
    let st := settleOutcome st (.ok response)
    let st := { st with timerPending := false,
                        clearTimeoutCount := st.clearTimeoutCount + 1 }
    if st.scriptPresent then
      let st := { st with scriptPresent := false,
                          removeScriptCount := st.removeScriptCount + 1 }
      { st with registered := false,
                clearFunctionCount := st.clearFunctionCount + 1 }
    else st

/-- The timer firing (only a still-pending timer fires; `clearTimeout`
cancels it): reject with the timeout error naming the original URL, delete
the global callback, then remove the script (which would throw if the
element were already gone). -/
def stepTimeout (url : String) (st : JsonpState) : JsonpState :=
  if !st.timerPending then st
  else
    let st := { st with timerPending := false }
    let st := settleOutcome st (.error ("JSONP request to " ++ url ++ " timed out"))
    let st := { st with registered := false,
                        clearFunctionCount := st.clearFunctionCount + 1 }
    if st.scriptPresent then
      { st with scriptPresent := false,
                removeScriptCount := st.removeScriptCount + 1 }
    else st

/-- The `timeout` default of `fetchJSONP`:
`options && options.timeout ? options.timeout : 5000`. -/
def jsonpTimeoutMs (options : JVal) : JVal :=
  if options.truthy && (options.getProp "timeout").truthy then
    options.getProp "timeout"
  else .num 5000

/-- The callback query-parameter name default of `fetchJSONP`:
`options && options.callback ? options.callback : 'callback'`. -/
def jsonpCallbackParam (options : JVal) : String :=
  if options.truthy && (options.getProp "callback").truthy then
    (options.getProp "callback").toJSString
  else "callback"

/-- The script URL built by `fetchJSONP`: the original URL, the same
`?`/`&` disambiguation as `fetch`, then `callbackParam=callbackName`. -/
def jsonpScriptSrc (url : String) (callbackParam callbackName : String) : String :=
  url ++ (if url.data.contains '?' then "&" else "?") ++ callbackParam ++ "=" ++ callbackName

/-- The id of the injected script element: `callbackParam_callbackName`. -/
def jsonpScriptId (callbackParam callbackName : String) : String :=
  callbackParam ++ "_" ++ callbackName

/-- `RequestService._clearFunction`: `try { delete window[fn] } catch (e) {
window[fn] = undefined }`. The window is a field list; `nonDeletable`
models environments in which the `delete` throws, in which case the catch
arm assigns `undefined` instead — both arms return normally. -/
def clearFunction (nonDeletable : String → Bool) (window : List (String × JVal))
    (functionName : String) : List (String × JVal) :=
  if nonDeletable functionName then setFields window functionName .undefined
  else window.filter (fun kv => kv.1 ≠ functionName)

/-- `RequestService._removeScript`: `getElementById` then
`head.removeChild(script)`, with no exception handling — when no element
with the given id exists, `removeChild(null)` throws a `TypeError`, which
propagates out of `_removeScript`. The document is the list of element ids
under `head`. -/
def removeScript (docIds : List String) (scriptId : String) :
    Except String (List String) :=
  if scriptId ∈ docIds then .ok (docIds.erase scriptId)
  else .error "TypeError: Failed to execute removeChild on Node: parameter 1 is not of type Node"

/-!
Claim-side definitions, following the spec's words, for comparison with the
definitions above.
-/

/-- A list of strings joined by a `&` separator (the spec's "joined by
`'&'`"). -/
def joinAmp : List String → String
  | [] => ""
  | [s] => s
  | s :: rest => s ++ "&" ++ joinAmp rest

/-- Helper: each string prefixed with `&`, concatenated. -/
def ampTail : List String → String
  | [] => ""
  | s :: rest => "&" ++ s ++ ampTail rest

/-- Modelled from the spec: the query string the spec prescribes for a
GET/DELETE object body — `key=value` for every own enumerable property,
value converted to string verbatim with no percent-encoding, joined by
`&`. -/
def specQueryString (fields : List (String × JVal)) : String :=
  joinAmp (fields.map (fun kv => kv.1 ++ "=" ++ kv.2.toJSString))

/-- Modelled from the spec: the `SearchQuery` value the Query Builder is
specified to produce from a term. -/
def buildMatchQuery (term : String) : JVal :=
  .obj
    [("query", .obj [("match", .obj [("url", .str term)])]),
     ("highlight", .obj
       [("pre_tags", .arr [.str "<strong>"]),
        ("post_tags", .arr [.str "</strong>"]),
        ("fields", .obj [("*", .obj [])]),
        ("require_field_match", .bool false)])]

/-!
Helper lemmas.
-/

/-- Unrolling the query-string loop from an accumulator whose separator has
already become `&`. -/
lemma queryOfProps_go (props : List (String × JVal)) (uri : String) :
    (props.foldl
      (fun acc kv => (acc.1 ++ acc.2 ++ kv.1 ++ "=" ++ kv.2.toJSString, "&"))
      (uri, "&")).1
      = uri ++ ampTail (props.map (fun kv => kv.1 ++ "=" ++ kv.2.toJSString)) := by
  induction props generalizing uri with
  | nil => simp [ampTail]
  | cons kv rest ih =>
      simp only [List.foldl_cons, List.map_cons, ampTail]
      rw [ih]
      simp [String.append_assoc]

/-- Joining a nonempty list with `&`. -/
lemma joinAmp_cons (L : List String) (s : String) :
    joinAmp (s :: L) = s ++ ampTail L := by
  induction L generalizing s with
  | nil => simp [joinAmp, ampTail]
  | cons t rest ih =>
      simp only [joinAmp, ampTail]
      rw [ih]
      simp [String.append_assoc]

/-- The loop of `fetch` computes exactly the spec's `&`-joined `key=value`
string. -/
lemma queryOfProps_eq_spec (props : List (String × JVal)) :
    queryOfProps props = specQueryString props := by
  cases props with
  | nil => rfl
  | cons kv rest =>
      unfold queryOfProps specQueryString
      simp only [List.foldl_cons, List.map_cons]
      rw [queryOfProps_go, joinAmp_cons]
      simp [String.append_assoc]

/-- Looking up the key just assigned. -/
lemma lookupFields_setFields_self (fs : List (String × JVal)) (k : String) (v : JVal) :
    lookupFields (setFields fs k v) k = v := by
  induction fs with
  | nil => simp [setFields, lookupFields]
  | cons kv rest ih =>
      obtain ⟨k', w⟩ := kv
      by_cases h : k' = k <;> simp [setFields, lookupFields, h, ih]

/-- Assignment leaves other keys untouched. -/
lemma lookupFields_setFields_ne (fs : List (String × JVal)) (k k' : String) (v : JVal)
    (h : k ≠ k') :
    lookupFields (setFields fs k v) k' = lookupFields fs k' := by
  induction fs with
  | nil => simp [setFields, lookupFields, h]
  | cons kv rest ih =>
      obtain ⟨k'', w⟩ := kv
      by_cases h2 : k'' = k <;> simp [setFields, lookupFields, h2, h, ih]

/-- After `delete`, the property is gone (reads as `undefined`). -/
lemma lookupFields_filter_self (fs : List (String × JVal)) (fn : String) :
    lookupFields (fs.filter (fun kv => kv.1 ≠ fn)) fn = .undefined := by
  induction fs with
  | nil => simp [lookupFields]
  | cons kv rest ih =>
      obtain ⟨k, w⟩ := kv
      by_cases h : k = fn
      · simpa [List.filter, h] using ih
      · simpa [List.filter, h, lookupFields] using ih

/-- `v.eqStr t` holds exactly for the string value `t`. -/
lemma eqStr_true_iff (v : JVal) (t : String) : v.eqStr t = true ↔ v = .str t := by
  cases v <;> simp [JVal.eqStr]

/-- Member access on a falsy value yields `undefined` (objects and arrays
are always truthy). -/
lemma getProp_of_not_truthy (v : JVal) (k : String) (h : v.truthy = false) :
    v.getProp k = .undefined := by
  cases v <;> simp_all [JVal.getProp, JVal.truthy]

/-!
Claim theorems.
-/

/-- Claim C1: for method GET or DELETE with an object body, `fetch` builds
the outgoing URL by appending each own enumerable property of the body as
`key=value` (value converted to string verbatim, no percent-encoding),
joined by `&`, attached with `?` when the URL contains no `?` and with `&`
otherwise; the options object is left unchanged and the request is sent. -/
theorem fetch_get_query_append (url : String) (m : JVal) (fields : List (String × JVal))
    (h : m = .str "GET" ∨ m = .str "DELETE") :
    fetchPrepare url (.obj [("method", m), ("body", .obj fields)]) =
      (.ok { url := url ++ (if url.data.contains '?' then "&" else "?") ++ specQueryString fields
             method := m, credentials := none, headers := [], body := .obj fields },
       .obj [("method", m), ("body", .obj fields)]) := by
  rcases h with h | h <;> subst h <;>
    simp [fetchPrepare, finishRequest, JVal.getProp, lookupFields, JVal.truthy, JVal.eqStr,
      JVal.isObjectType, JVal.ownProps, queryOfProps_eq_spec]

/-- Witness for C1, the spec's own scenario: GET on `https://e/search` with
body `\x7bq:'x', limit:5\x7d` produces the outgoing URL
`https://e/search?q=x&limit=5`. -/
theorem fetch_get_query_append_witness :
    fetchPrepare "https://e/search"
        (.obj [("method", .str "GET"), ("body", .obj [("q", .str "x"), ("limit", .num 5)])]) =
      (.ok { url := "https://e/search?q=x&limit=5", method := .str "GET", credentials := none,
             headers := [], body := .obj [("q", .str "x"), ("limit", .num 5)] },
       .obj [("method", .str "GET"), ("body", .obj [("q", .str "x"), ("limit", .num 5)])]) := by
  have h := fetch_get_query_append "https://e/search" (.str "GET")
      [("q", .str "x"), ("limit", .num 5)] (Or.inl rfl)
  rw [h]
  simp only [specQueryString, joinAmp, ampTail, JVal.toJSString, List.map_cons, List.map_nil,
    Prod.mk.injEq, Except.ok.injEq, RequestSent.mk.injEq, and_true, true_and]
  decide

/-- Claim C2 counterexample: a GET call with the present non-object body
`""` (a string) is not rejected — `options.body` is falsy, so the type
check at line 101 is never reached, and the request is prepared and sent
with that body. The claim says such a call fails immediately with a
type-mismatch error and that no request is attempted. -/
theorem fetch_get_falsy_body_counterexample :
    (fetchPrepare "https://e/search" (.obj [("method", .str "GET"), ("body", .str "")])).1
      = .ok { url := "https://e/search", method := .str "GET", credentials := none,
              headers := [], body := .str "" } := rfl

/-- Claim C2 amended: for method GET or DELETE, a body that is truthy and
not of `typeof 'object'` is rejected immediately with the TypeError and the
options are returned unmutated (no request is attempted); a falsy body
skips this check entirely. -/
theorem fetch_get_truthy_nonobject_rejected (url : String) (opts : JVal)
    (hm : (opts.getProp "method").eqStr "GET" = true
          ∨ (opts.getProp "method").eqStr "DELETE" = true)
    (hb : (opts.getProp "body").truthy = true)
    (hob : (opts.getProp "body").isObjectType = false) :
    fetchPrepare url opts =
      (.error "Non object like body not allowed for GET requests. The body has to be an object so the properties will be appended as a GET parameter to the url.",
       opts) := by
  cases opts with
  | obj fs =>
      have hc : ((((JVal.obj fs).getProp "method").eqStr "GET"
          || ((JVal.obj fs).getProp "method").eqStr "DELETE")
          && ((JVal.obj fs).getProp "body").truthy) = true := by
        rcases hm with hm | hm <;> simp [hm, hb]
      simp [fetchPrepare, hc, hob, show (JVal.obj fs).truthy = true from rfl]
  | undefined => simp [JVal.getProp, JVal.truthy] at hb
  | null => simp [JVal.getProp, JVal.truthy] at hb
  | bool b => simp [JVal.getProp, JVal.truthy] at hb
  | num n => simp [JVal.getProp, JVal.truthy] at hb
  | str s => simp [JVal.getProp, JVal.truthy] at hb
  | arr elems => simp [JVal.getProp, JVal.truthy] at hb

/-- Witness for the amended C2: a GET call with the truthy string body
`"hi"` is rejected with the TypeError. -/
theorem fetch_get_truthy_nonobject_rejected_witness :
    fetchPrepare "https://e/search" (.obj [("method", .str "GET"), ("body", .str "hi")]) =
      (.error "Non object like body not allowed for GET requests. The body has to be an object so the properties will be appended as a GET parameter to the url.",
       .obj [("method", .str "GET"), ("body", .str "hi")]) :=
  fetch_get_truthy_nonobject_rejected "https://e/search"
    (.obj [("method", .str "GET"), ("body", .str "hi")])
    (Or.inl (by decide)) (by decide) (by decide)

/-- Claim C3: for method HEAD, when the body value left by the encoding
step (strings pass through, anything else is `JSON.stringify`-ed, so
`undefined` stays absent) is non-empty (truthy), `fetch` rejects with the
"body not allowed" error before any request; with an absent or empty body
after encoding, the request is sent with the original URL and method
HEAD. -/
theorem fetch_head_body (url : String) (opts : JVal)
    (hm : (opts.getProp "method").eqStr "HEAD" = true) :
    ((encodedBodyAfter (opts.getProp "body")).truthy = true →
      (fetchPrepare url opts).1 = .error "Body not allowed for HEAD requests") ∧
    ((encodedBodyAfter (opts.getProp "body")).truthy = false →
      ∃ req, (fetchPrepare url opts).1 = .ok req ∧ req.url = url ∧ req.method = .str "HEAD") := by
  cases opts with
  | obj fs =>
      rw [eqStr_true_iff] at hm
      have htrue : (JVal.str "HEAD").truthy = true := rfl
      have hobj : (JVal.obj fs).truthy = true := rfl
      by_cases hs : ((JVal.obj fs).getProp "body").isString
      · have henc : encodedBodyAfter ((JVal.obj fs).getProp "body")
            = (JVal.obj fs).getProp "body" := by
          simp [encodedBodyAfter, hs]
        constructor
        · intro ht
          rw [henc] at ht
          simp [fetchPrepare, finishRequest, hm, hs, JVal.eqStr, ht, htrue, hobj]
        · intro hf
          rw [henc] at hf
          simp only [fetchPrepare, finishRequest, hm, hs, JVal.eqStr, hf, htrue, hobj,
            decide_True, decide_False, Bool.false_or, Bool.or_false, Bool.false_and,
            Bool.and_false, Bool.true_and, if_true, if_false, Bool.false_eq_true,
            if_pos, ite_true, ite_false]
          exact ⟨_, rfl, rfl, rfl⟩
      · have hget : ∀ w : JVal,
            (JVal.setProp (JVal.obj fs) "body" w).getProp "body" = w := by
          intro w
          simp [JVal.setProp, JVal.getProp, lookupFields_setFields_self]
        have hmeth : ∀ w : JVal,
            (JVal.setProp (JVal.obj fs) "body" w).getProp "method"
              = (JVal.obj fs).getProp "method" := by
          intro w
          simp [JVal.setProp, JVal.getProp]
          exact lookupFields_setFields_ne fs "body" "method" w (by decide)
        have henc : encodedBodyAfter ((JVal.obj fs).getProp "body")
            = stringifyToJVal ((JVal.obj fs).getProp "body") := by
          simp [encodedBodyAfter, hs]
        constructor
        · intro ht
          rw [henc] at ht
          simp [fetchPrepare, finishRequest, hm, hs, JVal.eqStr, hget, hmeth, ht, htrue, hobj]
        · intro hf
          rw [henc] at hf
          simp only [fetchPrepare, finishRequest, hm, hs, JVal.eqStr, hget, hmeth, hf, htrue,
            hobj, decide_True, decide_False, Bool.false_or, Bool.or_false, Bool.false_and,
            Bool.and_false, Bool.true_and, if_true, if_false, Bool.false_eq_true,
            if_pos, ite_true, ite_false]
          exact ⟨_, rfl, rfl, rfl⟩
  | undefined => simp [JVal.getProp, JVal.eqStr] at hm
  | null => simp [JVal.getProp, JVal.eqStr] at hm
  | bool b => simp [JVal.getProp, JVal.eqStr] at hm
  | num n => simp [JVal.getProp, JVal.eqStr] at hm
  | str s => simp [JVal.getProp, JVal.eqStr] at hm
  | arr elems => simp [JVal.getProp, JVal.eqStr] at hm

/-- Witness for C3: a HEAD call with object body `\x7b\x7d` (stringified to
the non-empty `"\x7b\x7d"`) is rejected, while a HEAD call with no body is
sent with the original URL. -/
theorem fetch_head_body_witness :
    (fetchPrepare "https://e/h" (.obj [("method", .str "HEAD"), ("body", .obj [])])).1
        = .error "Body not allowed for HEAD requests" ∧
    (∃ req, (fetchPrepare "https://e/h" (.obj [("method", .str "HEAD")])).1 = .ok req ∧
      req.url = "https://e/h" ∧ req.method = .str "HEAD") := by
  constructor
  · exact (fetch_head_body "https://e/h" (.obj [("method", .str "HEAD"), ("body", .obj [])])
      (by decide)).1
      (by simp [encodedBodyAfter, JVal.isString, stringifyToJVal, jsonStringify,
            jsonStringifyFields, JVal.truthy, JVal.getProp, lookupFields])
  · exact (fetch_head_body "https://e/h" (.obj [("method", .str "HEAD")])
      (by decide)).2
      (by simp [encodedBodyAfter, JVal.isString, stringifyToJVal, jsonStringify,
            JVal.truthy, JVal.getProp, lookupFields])

/-- Claim C4 counterexample: the caller supplies a `Content-Type` header
with the (falsy) value `""`; the claim says the caller's value is left
unchanged and not overwritten, but `fetchJSON` tests the truthiness of
`options.headers['Content-Type']` and overwrites the caller's value with
`application/json`. -/
theorem fetchJSON_contentType_counterexample :
    ((JVal.obj [("headers", .obj [("Content-Type", .str "")])]).getProp "headers").getProp
        "Content-Type" = .str "" ∧
    ((fetchJSONOptions (.obj [("headers", .obj [("Content-Type", .str "")])])).getProp
        "headers").getProp "Content-Type" = .str "application/json" ∧
    JVal.str "" ≠ JVal.str "application/json" := by
  refine ⟨rfl, rfl, ?_⟩
  simp

/-- Evaluation of `fetchJSONOptions` when the caller's headers are an
object: the options pass through untouched when the exact key
`Content-Type` holds a truthy value, and otherwise the headers object gets
`application/json` stored under `Content-Type`. -/
lemma fetchJSONOptions_objHeaders (fs hs : List (String × JVal))
    (hh : lookupFields fs "headers" = .obj hs) :
    fetchJSONOptions (.obj fs) =
      if (lookupFields hs "Content-Type").truthy then .obj fs
      else .obj (setFields fs "headers"
        (.obj (setFields hs "Content-Type" (.str "application/json")))) := by
  have hobj : (JVal.obj fs).truthy = true := rfl
  have hobj2 : (JVal.obj hs).truthy = true := rfl
  have hht : (lookupFields fs "headers").truthy = true := by rw [hh]; rfl
  by_cases hct : (lookupFields hs "Content-Type").truthy
  · simp [fetchJSONOptions, JVal.getProp, JVal.setProp, hobj, hobj2, hht, hh, hct]
  · simp only [Bool.not_eq_true] at hct
    simp [fetchJSONOptions, JVal.getProp, JVal.setProp, hobj, hobj2, hht, hh, hct]

/-- Evaluation of `fetchJSONOptions` when the caller's headers are falsy or
absent: a fresh headers object containing only
`Content-Type: application/json` is stored on the options. -/
lemma fetchJSONOptions_falsyHeaders (fs : List (String × JVal))
    (hf0 : (lookupFields fs "headers").truthy = false) :
    fetchJSONOptions (.obj fs) =
      .obj (setFields (setFields fs "headers" (.obj []))
        "headers" (.obj [("Content-Type", .str "application/json")])) := by
  have hobj : (JVal.obj fs).truthy = true := rfl
  simp [fetchJSONOptions, JVal.getProp, JVal.setProp, hobj, hf0,
    lookupFields_setFields_self, lookupFields, setFields,
    show JVal.truthy .undefined = false from rfl,
    show (JVal.obj ([] : List (String × JVal))).truthy = true from rfl]

/-- Claim C4 amended: for an options object whose `headers` are an object
or absent/falsy, `fetchJSON` leaves the options untouched when the exact
key `Content-Type` holds a truthy value, and otherwise stores
`application/json` under the exact key `Content-Type` while leaving every
other header key unchanged. A falsy value under `Content-Type`, or a
differently-cased key such as `content-type`, does not suppress the
default. -/
theorem fetchJSON_contentType_default (fs : List (String × JVal))
    (hhead : (∃ hs, lookupFields fs "headers" = .obj hs)
             ∨ (lookupFields fs "headers").truthy = false) :
    (((lookupFields fs "headers").getProp "Content-Type").truthy = true →
        fetchJSONOptions (.obj fs) = .obj fs) ∧
    (((lookupFields fs "headers").getProp "Content-Type").truthy = false →
        ((fetchJSONOptions (.obj fs)).getProp "headers").getProp "Content-Type"
            = .str "application/json" ∧
        ∀ k, k ≠ "Content-Type" →
          ((fetchJSONOptions (.obj fs)).getProp "headers").getProp k
            = (lookupFields fs "headers").getProp k) := by
  rcases hhead with ⟨hs, hh⟩ | hf0
  · have key := fetchJSONOptions_objHeaders fs hs hh
    constructor
    · intro ht
      rw [hh] at ht
      simp only [JVal.getProp] at ht
      rw [key]
      simp [ht]
    · intro hf
      rw [hh] at hf
      simp only [JVal.getProp] at hf
      rw [key]
      simp only [hf, Bool.false_eq_true, if_false, ite_false]
      constructor
      · simp [JVal.getProp, lookupFields_setFields_self]
      · intro k hk
        rw [hh]
        simp only [JVal.getProp, lookupFields_setFields_self]
        exact lookupFields_setFields_ne hs "Content-Type" k (.str "application/json")
          (Ne.symm hk)
  · have key := fetchJSONOptions_falsyHeaders fs hf0
    have hct : (lookupFields fs "headers").getProp "Content-Type" = .undefined :=
      getProp_of_not_truthy _ _ hf0
    constructor
    · intro ht
      rw [hct] at ht
      simp [JVal.truthy] at ht
    · intro _
      rw [key]
      constructor
      · simp [JVal.getProp, lookupFields_setFields_self, lookupFields]
      · intro k hk
        have hrhs : (lookupFields fs "headers").getProp k = .undefined :=
          getProp_of_not_truthy _ _ hf0
        rw [hrhs]
        simp [JVal.getProp, lookupFields_setFields_self, lookupFields, Ne.symm hk]

/-- Witness for the amended C4: a caller-supplied truthy `Content-Type`
(`text/html`) is kept and the options are unchanged; with no headers at
all, `Content-Type: application/json` is stored. -/
theorem fetchJSON_contentType_default_witness :
    fetchJSONOptions (.obj [("headers", .obj [("Content-Type", .str "text/html")])])
        = .obj [("headers", .obj [("Content-Type", .str "text/html")])] ∧
    ((fetchJSONOptions (.obj [])).getProp "headers").getProp "Content-Type"
        = .str "application/json" := by
  constructor
  · exact (fetchJSON_contentType_default
      [("headers", .obj [("Content-Type", .str "text/html")])]
      (Or.inl ⟨[("Content-Type", .str "text/html")], rfl⟩)).1 (by decide)
  · exact ((fetchJSON_contentType_default [] (Or.inr (by decide))).2 (by decide)).1

/-- Claim C5: the `onload` handler rejects with the raw response body as
the error message exactly when the status is at least 400 or is the
sentinel 0, and otherwise resolves with the response body (preferring
`xhr.response` when present, which carries the same body). -/
theorem fetch_onload_outcome (status : Nat) (response : Option String) (body : String)
    (hresp : response = none ∨ response = some body) :
    ((status ≥ 400 ∨ status = 0) → xhrOnload status response body = .error body) ∧
    (¬(status ≥ 400 ∨ status = 0) → xhrOnload status response body = .ok body) := by
  constructor
  · intro h
    rcases h with h | h <;> simp [xhrOnload, h]
  · intro h
    push_neg at h
    rcases hresp with hr | hr <;> simp [xhrOnload, hr, h.1, h.2, Option.getD]

/-- Witness for C5, the spec's own scenario: a status-500 response with
body `Internal Error` rejects with an error whose message is
`Internal Error`. -/
theorem fetch_onload_outcome_witness :
    xhrOnload 500 none "Internal Error" = .error "Internal Error" :=
  (fetch_onload_outcome 500 none "Internal Error" (Or.inl rfl)).1 (Or.inl (by norm_num))

/-- Claim C6 counterexample: when the timeout fires first, the code calls
`_clearFunction` and `_removeScript` but never calls `clearTimeout` (the
timer was consumed by firing, and the timeout handler contains no
`clearTimeout` call), so the three cleanup actions do not all execute
exactly once in that trace: the timer-cancel action executes zero times. -/
theorem jsonp_timeout_no_cleartimeout_counterexample :
    (stepTimeout "https://e/jsonp" jsonpInit).clearTimeoutCount = 0 ∧
    (stepTimeout "https://e/jsonp" jsonpInit).clearFunctionCount = 1 ∧
    (stepTimeout "https://e/jsonp" jsonpInit).removeScriptCount = 1 ∧
    (stepTimeout "https://e/jsonp" jsonpInit).outcome
      = some (.error "JSONP request to https://e/jsonp timed out") :=
  ⟨rfl, rfl, rfl, rfl⟩

/-- Claim C6 amended: when the callback fires first, the promise resolves
with the payload and all three cleanup actions (cancel the timer, remove
the script, delete the global callback) execute exactly once, and the
cancelled timer event afterwards changes nothing; when the timeout fires
first, the promise rejects with a timeout error naming the original URL,
script removal and callback deletion execute exactly once, the timer is
consumed by firing rather than cancelled (`clearTimeout` runs zero times),
and a late callback invocation is a no-op. -/
theorem jsonp_cleanup_once (url : String) (payload : JVal) :
    ((stepCallback payload jsonpInit).outcome = some (.ok payload) ∧
     (stepCallback payload jsonpInit).clearTimeoutCount = 1 ∧
     (stepCallback payload jsonpInit).removeScriptCount = 1 ∧
     (stepCallback payload jsonpInit).clearFunctionCount = 1 ∧
     stepTimeout url (stepCallback payload jsonpInit) = stepCallback payload jsonpInit) ∧
    ((stepTimeout url jsonpInit).outcome
        = some (.error ("JSONP request to " ++ url ++ " timed out")) ∧
     (stepTimeout url jsonpInit).removeScriptCount = 1 ∧
     (stepTimeout url jsonpInit).clearFunctionCount = 1 ∧
     (stepTimeout url jsonpInit).clearTimeoutCount = 0 ∧
     stepCallback payload (stepTimeout url jsonpInit) = stepTimeout url jsonpInit) :=
  ⟨⟨rfl, rfl, rfl, rfl, rfl⟩, ⟨rfl, rfl, rfl, rfl, rfl⟩⟩

/-- Claim C7 counterexample: an exception raised while removing the
injected script element is not swallowed — `_removeScript` has no
`try`/`catch`, so when no element with the given id exists (the script was
already removed), `removeChild(null)` throws a TypeError that propagates
out of `_removeScript` instead of being swallowed. -/
theorem removeScript_not_swallowed_counterexample :
    removeScript [] "callback_jsonp_1"
      = .error "TypeError: Failed to execute removeChild on Node: parameter 1 is not of type Node" := by
  simp [removeScript]

/-- Claim C7 amended: deleting the temporary global callback never throws
(`_clearFunction` catches a failing `delete` and falls back to assigning
`undefined`, so the global always ends up gone or `undefined`), and cleanup
can never change an already-settled promise outcome, so a cleanup failure
never surfaces to the caller as a failed result; but an exception raised
while removing the script element propagates out of `_removeScript` into
the surrounding asynchronous context rather than being swallowed. -/
theorem cleanup_exception_policy (nd : String → Bool) (w : List (String × JVal))
    (fn : String) (docIds : List String) (sid : String) (st : JsonpState)
    (p : JVal) (u : String) (r : Except String JVal) :
    lookupFields (clearFunction nd w fn) fn = .undefined ∧
    (sid ∉ docIds →
      removeScript docIds sid
        = .error "TypeError: Failed to execute removeChild on Node: parameter 1 is not of type Node") ∧
    (st.outcome = some r →
      (stepCallback p st).outcome = some r ∧ (stepTimeout u st).outcome = some r) := by
  refine ⟨?_, ?_, ?_⟩
  · by_cases h : nd fn
    · simp [clearFunction, h, lookupFields_setFields_self]
    · simpa [clearFunction, h] using lookupFields_filter_self w fn
  · intro h
    simp [removeScript, h]
  · intro h
    constructor
    · by_cases hr : st.registered <;>
        by_cases hsc : st.scriptPresent <;>
          simp [stepCallback, settleOutcome, h, hr, hsc]
    · by_cases htp : st.timerPending <;>
        by_cases hsc : st.scriptPresent <;>
          simp [stepTimeout, settleOutcome, h, htp, hsc]

/-- Witness for the amended C7 at concrete inputs: the global is gone after
`_clearFunction`, `_removeScript` on an empty head throws, and a settled
promise outcome survives both cleanup steps. -/
theorem cleanup_exception_policy_witness :
    lookupFields (clearFunction (fun _ => false) [("jsonp_cb", .str "f")] "jsonp_cb")
        "jsonp_cb" = .undefined ∧
    removeScript [] "cb_x"
      = .error "TypeError: Failed to execute removeChild on Node: parameter 1 is not of type Node" ∧
    ((stepCallback .null ⟨false, false, false, some (.ok (.str "done")), 1, 1, 1⟩).outcome
        = some (.ok (.str "done")) ∧
     (stepTimeout "https://e" ⟨false, false, false, some (.ok (.str "done")), 1, 1, 1⟩).outcome
        = some (.ok (.str "done"))) :=
  ⟨(cleanup_exception_policy (fun _ => false) [("jsonp_cb", .str "f")] "jsonp_cb"
      [] "cb_x" ⟨false, false, false, some (.ok (.str "done")), 1, 1, 1⟩
      .null "https://e" (.ok (.str "done"))).1,
   (cleanup_exception_policy (fun _ => false) [("jsonp_cb", .str "f")] "jsonp_cb"
      [] "cb_x" ⟨false, false, false, some (.ok (.str "done")), 1, 1, 1⟩
      .null "https://e" (.ok (.str "done"))).2.1 (by simp),
   (cleanup_exception_policy (fun _ => false) [("jsonp_cb", .str "f")] "jsonp_cb"
      [] "cb_x" ⟨false, false, false, some (.ok (.str "done")), 1, 1, 1⟩
      .null "https://e" (.ok (.str "done"))).2.2 rfl⟩

/-- Claim C8: the query builder is a total function of the term alone (so
pure and deterministic), and for every string term — the empty string
included — the body it builds is exactly the match/highlight `SearchQuery`
structure given in the spec. -/
theorem getDefaultConfig_builds_match_query (term : String) :
    (getDefaultConfig term).getProp "body" = buildMatchQuery term ∧
    (getDefaultConfig term).getProp "method" = .str "POST" :=
  ⟨rfl, rfl⟩

/-- Claim C9 counterexample: `search` is called with the override options
`null` explicitly supplied; the claim says a supplied override is passed
through verbatim and the Query Builder is bypassed, but `search` tests the
truthiness of `customConfig`, so the falsy override is discarded and the
default builder config is used instead. -/
theorem search_falsy_override_counterexample :
    search "https://s" "x" (some .null) = ("https://s", getDefaultConfig "x") ∧
    getDefaultConfig "x" ≠ .null :=
  ⟨rfl, fun h => JVal.noConfusion h⟩

/-- Claim C9 amended: a supplied truthy override is passed through verbatim
to `fetchJSON` on the configured URL, bypassing the builder; an absent or
falsy override makes `search` run the term through the builder and pass the
default config, whose method is POST and whose body is the builder's
query. -/
theorem search_dispatch (u t : String) (c : JVal) :
    (c.truthy = true → search u t (some c) = (u, c)) ∧
    (c.truthy = false → search u t (some c) = (u, getDefaultConfig t)) ∧
    search u t none = (u, getDefaultConfig t) ∧
    (getDefaultConfig t).getProp "method" = .str "POST" ∧
    (getDefaultConfig t).getProp "body" = buildMatchQuery t := by
  refine ⟨?_, ?_, rfl, rfl, rfl⟩
  · intro h
    simp [search, h]
  · intro h
    simp [search, h]

/-- Witness for the amended C9: a truthy override object is passed through
verbatim; a falsy override (the empty string) is replaced by the default
builder config. -/
theorem search_dispatch_witness :
    search "https://s" "chair" (some (.obj [("method", .str "GET")]))
        = ("https://s", .obj [("method", .str "GET")]) ∧
    search "https://s" "chair" (some (.str "")) = ("https://s", getDefaultConfig "chair") :=
  ⟨(search_dispatch "https://s" "chair" (.obj [("method", .str "GET")])).1 (by decide),
   (search_dispatch "https://s" "chair" (.str "")).2.1 (by decide)⟩

/-- `finishRequest` never mutates the options it is given. -/
lemma finishRequest_snd (u : String) (o h : JVal) : (finishRequest u o h).2 = o := by
  unfold finishRequest
  split <;> rfl

/-- A key an object does not own reads as `undefined`. -/
lemma lookupFields_of_hasOwn_false (fs : List (String × JVal)) (k : String)
    (h : (JVal.obj fs).hasOwn k = false) : lookupFields fs k = .undefined := by
  induction fs with
  | nil => rfl
  | cons kv rest ih =>
      obtain ⟨k', w⟩ := kv
      simp only [JVal.hasOwn, List.any_cons, Bool.or_eq_false_iff] at h
      simp only [lookupFields]
      rw [if_neg (by simpa using h.1)]
      exact ih (by simpa [JVal.hasOwn] using h.2)

/-- Claim C10: the body-encoding of `fetch` and the header-defaulting of
`fetchJSON` mutate the caller's options in place. For any method other than
GET and DELETE with a non-string body, the options returned by `fetch`
carry `JSON.stringify` of the original body (an absent body stays absent,
`JSON.stringify(undefined)` being `undefined`); and for a caller options
object whose headers are an object without the exact key `Content-Type`
(or are absent/falsy), the headers reachable from the caller's options
after `fetchJSON`'s defaulting hold `Content-Type: application/json`. -/
theorem fetch_mutation_observable (url : String) (opts : JVal) :
    (((opts.getProp "method").eqStr "GET" = false
        ∧ (opts.getProp "method").eqStr "DELETE" = false
        ∧ (opts.getProp "body").isString = false) →
      ((fetchPrepare url opts).2).getProp "body"
        = stringifyToJVal (opts.getProp "body")) ∧
    (∀ fs, opts = .obj fs →
      ((∃ hs, lookupFields fs "headers" = .obj hs)
        ∨ (lookupFields fs "headers").truthy = false) →
      (lookupFields fs "headers").hasOwn "Content-Type" = false →
      ((fetchJSONOptions (.obj fs)).getProp "headers").getProp "Content-Type"
        = .str "application/json") := by
  constructor
  · rintro ⟨hm1, hm2, hb⟩
    cases opts with
    | obj fs =>
        have hobj : (JVal.obj fs).truthy = true := rfl
        simp only [JVal.getProp] at hm1 hm2 hb
        simp [fetchPrepare, hobj, hm1, hm2, hb, finishRequest_snd, JVal.getProp,
          JVal.setProp, lookupFields_setFields_self]
    | undefined =>
        rcases Bool.eq_false_or_eq_true (JVal.undefined.truthy) with h | h <;>
          simp [fetchPrepare, finishRequest_snd, h, JVal.getProp, JVal.setProp,
            JVal.isString, stringifyToJVal, jsonStringify, lookupFields, setFields,
            JVal.eqStr, show JVal.truthy .undefined = false from rfl]
    | null =>
        rcases Bool.eq_false_or_eq_true (JVal.null.truthy) with h | h <;>
          simp [fetchPrepare, finishRequest_snd, h, JVal.getProp, JVal.setProp,
            JVal.isString, stringifyToJVal, jsonStringify, lookupFields, setFields,
            JVal.eqStr, show JVal.truthy .undefined = false from rfl]
    | bool b =>
        rcases Bool.eq_false_or_eq_true ((JVal.bool b).truthy) with h | h <;>
          simp [fetchPrepare, finishRequest_snd, h, JVal.getProp, JVal.setProp,
            JVal.isString, stringifyToJVal, jsonStringify, lookupFields, setFields,
            JVal.eqStr, show JVal.truthy .undefined = false from rfl]
    | num n =>
        rcases Bool.eq_false_or_eq_true ((JVal.num n).truthy) with h | h <;>
          simp [fetchPrepare, finishRequest_snd, h, JVal.getProp, JVal.setProp,
            JVal.isString, stringifyToJVal, jsonStringify, lookupFields, setFields,
            JVal.eqStr, show JVal.truthy .undefined = false from rfl]
    | str s =>
        rcases Bool.eq_false_or_eq_true ((JVal.str s).truthy) with h | h <;>
          simp [fetchPrepare, finishRequest_snd, h, JVal.getProp, JVal.setProp,
            JVal.isString, stringifyToJVal, jsonStringify, lookupFields, setFields,
            JVal.eqStr, show JVal.truthy .undefined = false from rfl]
    | arr elems =>
        rcases Bool.eq_false_or_eq_true ((JVal.arr elems).truthy) with h | h <;>
          simp [fetchPrepare, finishRequest_snd, h, JVal.getProp, JVal.setProp,
            JVal.isString, stringifyToJVal, jsonStringify, lookupFields, setFields,
            JVal.eqStr, show JVal.truthy .undefined = false from rfl]
  · rintro fs rfl hshape hown
    rcases hshape with ⟨hs, hh⟩ | hf0
    · rw [hh] at hown
      have hl : lookupFields hs "Content-Type" = .undefined :=
        lookupFields_of_hasOwn_false hs "Content-Type" hown
      rw [fetchJSONOptions_objHeaders fs hs hh]
      rw [hl]
      simp only [show JVal.truthy .undefined = false from rfl, Bool.false_eq_true,
        if_false, ite_false]
      simp [JVal.getProp, lookupFields_setFields_self]
    · rw [fetchJSONOptions_falsyHeaders fs hf0]
      simp [JVal.getProp, lookupFields_setFields_self, lookupFields]

/-- Witness for C10: a POST call whose body is the object `\x7ba:1\x7d`
comes back with `options.body` replaced by its JSON serialization, and an
options object without headers comes back from the `fetchJSON` defaulting
with `Content-Type: application/json` reachable through it. -/
theorem fetch_mutation_observable_witness :
    ((fetchPrepare "https://e/s"
        (.obj [("method", .str "POST"), ("body", .obj [("a", .num 1)])])).2).getProp "body"
      = stringifyToJVal ((JVal.obj [("method", .str "POST"),
          ("body", .obj [("a", .num 1)])]).getProp "body") ∧
    ((fetchJSONOptions (.obj [("method", .str "POST")])).getProp "headers").getProp
        "Content-Type" = .str "application/json" :=
  ⟨(fetch_mutation_observable "https://e/s"
      (.obj [("method", .str "POST"), ("body", .obj [("a", .num 1)])])).1
      ⟨by decide, by decide, by decide⟩,
   (fetch_mutation_observable "https://e/s" (.obj [("method", .str "POST")])).2
      [("method", .str "POST")] rfl (Or.inr (by decide)) (by decide)⟩

end ElasticsearchService
